import Mathlib

/-!
# Verification of `AgentMechContract` (packages/valory/contracts/agent_mech/contract.py)

Shallow embedding of the contract-gateway class and the library semantics it
invokes, together with proofs of the specification's testable properties.

Modelling conventions:

* Byte strings are `List Nat` with every element `< 256`; 256-bit machine words
  are `Nat` with explicit bounds / reductions modulo `2 ^ 256` where the source
  overflows.
* The Keccak-256 hash used by the ABI layer is an abstract parameter
  `kec : List Nat → List Nat`: every theorem is proved for an arbitrary hash
  function, exactly as the specification describes the selector / topic values
  ("first 4 bytes of the Keccak-256 hash of the canonical signature").
* Fallible Python code is modelled with `Except GatewayError`.  The error
  constructors record which concrete library exception they stand for:
  `encodingError` is the call-build-time rejection of unencodable
  arguments (eth_abi `ValueOutOfBounds`, a subclass of `EncodingError`,
  surfaced through web3's argument-encodability check); `decodeError` is
  `web3.exceptions.MismatchedABI` / `LogTopicError` — exactly the classes
  `_parse_logs` catches under its `errors=WARN` policy; `insufficientData`
  is `eth_abi.exceptions.InsufficientDataBytes` (a data-length mismatch:
  also in the spec's `DecodeError` category but NOT caught by the WARN
  policy, so it propagates out of `processReceipt`); `notFound` is the
  `ValueError` raised by the starred unpacking `event, *_ = ()` when
  `processReceipt` matched no log; `valueError` is the explicit
  `ValueError(f"Only EthereumApi is supported, got {type(ledger_api)}")`.
* The ledger client is modelled by passing the list of raw logs the node
  returns for the installed filter (the gateway performs no filtering of its
  own beyond the per-log decoding the library applies).
* Python `dict` construction (`{"tx_hash": ..., **entry["args"]}`,
  `dict(itertools.chain(...))`) is modelled by `dictOfPairs`, a left fold that
  inserts key/value pairs with the later-binding-wins override semantics of
  Python dict literals.
-/

namespace AgentMech

/-- Decoded ABI values as they appear in the JSON-like records the class
returns: Python ints, strings and `bytes`. -/
inductive Value where
  | nat (n : Nat)
  | str (s : String)
  | byt (bs : List Nat)
  deriving Repr, DecidableEq

/-- The ABI parameter types exercised by this contract class:
`uint256` (static) and `bytes` (dynamic). -/
inductive ABIType where
  | uint256
  | bytesT
  deriving Repr, DecidableEq

/-- Whether a type is dynamically sized in the ABI encoding. -/
def ABIType.isDynamic : ABIType → Bool
  | .uint256 => false
  | .bytesT => true

/-- Canonical ABI name of a type, as used in canonical signatures. -/
def ABIType.canonicalName : ABIType → String
  | .uint256 => "uint256"
  | .bytesT => "bytes"

/-- Failure modes of the gateway, one constructor per concrete Python
exception (see the module docstring for the correspondence). -/
inductive GatewayError where
  | encodingError
  | decodeError
  | insufficientData
  | notFound
  | valueError (msg : String)
  deriving Repr, DecidableEq

/-- The exception classes `web3._utils.events._parse_logs` catches under
its default `errors=WARN` policy — `MismatchedABI` / `LogTopicError`
(modelled `decodeError`).  Everything else, in particular eth_abi's
`InsufficientDataBytes` (modelled `insufficientData`), propagates. -/
def GatewayError.caughtByWarn : GatewayError → Bool
  | .decodeError => true
  | _ => false

/-- The runtime class of the injected ledger client.  `get_deliver_data`
checks `isinstance(ledger_api, EthereumApi)`; `otherApi t` carries the
`type(ledger_api)` text interpolated into the raised `ValueError`. -/
inductive LedgerApi where
  | ethereumApi
  | otherApi (typeName : String)
  deriving Repr, DecidableEq

/-- Embeds `web3.types.BlockIdentifier`: a concrete block number or a symbolic
marker.  Only forwarded to the node inside the filter parameters. -/
inductive BlockIdentifier where
  | earliest
  | latest
  | pending
  | number (n : Nat)
  deriving Repr, DecidableEq

/-! ## Bytes and words -/

/-- Big-endian 32-byte encoding of `n % 2 ^ 256`. -/
def wordBytes (n : Nat) : List Nat :=
  (List.range 32).map fun i => n / 2 ^ (8 * (31 - i)) % 256

/-- Big-endian value of a byte string. -/
def wordOfBytes (bs : List Nat) : Nat :=
  bs.foldl (fun acc b => acc * 256 + b) 0

/-- Embeds `eth_abi.utils.padding.ceil32`. -/
def ceil32 (n : Nat) : Nat := (n + 31) / 32 * 32

/-- Right-pad a byte string with zeros to a multiple of 32 bytes. -/
def padRight32 (bs : List Nat) : List Nat :=
  bs ++ List.replicate (ceil32 bs.length - bs.length) 0

/-- UTF-8/ASCII bytes of a canonical signature string (all signatures used
here are ASCII, so code points are the bytes). -/
def strBytes (s : String) : List Nat :=
  s.data.map Char.toNat

/-- Lowercase hex of one byte (two hex digits). -/
def byteHex (b : Nat) : String :=
  String.mk [Nat.digitChar (b / 16 % 16), Nat.digitChar (b % 16)]

/-- Lowercase hex of a byte string, no leading marker. -/
def hexBytes (bs : List Nat) : String :=
  String.join (bs.map byteHex)

/-- Embeds `hexbytes.HexBytes.hex()` (hexbytes 0.x, pinned by web3 5.x): lowercase
hex with a leading `"0x"`. -/
def hexBytes0x (bs : List Nat) : String :=
  "0x" ++ hexBytes bs

/-! ## Python dict semantics -/

/-- One Python dict insertion: overwrite the value at an existing key (the
key keeps its position) or append a fresh binding. -/
def dictInsert (m : List (String × Value)) (k : String) (v : Value) :
    List (String × Value) :=
  if (m.lookup k).isSome then
    m.map fun p => if p.1 = k then (k, v) else p
  else
    m ++ [(k, v)]

/-- The dict built from a sequence of key/value pairs, later pairs
overriding earlier ones — the semantics of `{k: v, ..., **args}` and of
`dict(itertools.chain(...))`. -/
def dictOfPairs (ps : List (String × Value)) : List (String × Value) :=
  ps.foldl (fun m p => dictInsert m p.1 p.2) []

/-- An `EventRecord` as returned by the class: a JSON-like mapping from
field name to decoded value, represented as the association list a Python
dict denotes. -/
abbrev EventRecord := List (String × Value)

/-! ## ABI call encoding (`eth_abi` encoder, as invoked by
`contract_instance.encodeABI`) -/

/-- Encode one argument value at its type.
`uint256`: `eth_abi` validates the bound and raises `ValueOutOfBounds`
(a subclass of `eth_abi.exceptions.EncodingError`) for values outside
`[0, 2 ^ 256)`; in range it emits the big-endian 32-byte word.
`bytes`: a length word followed by the zero-right-padded content; never
fails.  A value/type mismatch is also an encoding error. -/
def encodeArg : ABIType → Value → Except GatewayError (List Nat)
  | .uint256, .nat n =>
      if n < 2 ^ 256 then .ok (wordBytes n) else .error .encodingError
  | .bytesT, .byt bs => .ok (wordBytes bs.length ++ padRight32 bs)
  | _, _ => .error .encodingError

/-- The head section of the `eth_abi` tuple encoder: static arguments are
inlined, dynamic arguments contribute a 32-byte offset word pointing past
the head section plus the tails already emitted. -/
def tupleHeads : List (ABIType × List Nat) → Nat → Nat → List Nat
  | [], _, _ => []
  | (t, e) :: rest, headLen, tailLen =>
      if t.isDynamic then
        wordBytes (headLen + tailLen) ++ tupleHeads rest headLen (tailLen + e.length)
      else
        e ++ tupleHeads rest headLen tailLen

/-- The tail section of the `eth_abi` tuple encoder: the concatenated
encodings of the dynamic arguments, in argument order. -/
def tupleTails : List (ABIType × List Nat) → List Nat
  | [] => []
  | (t, e) :: rest => (if t.isDynamic then e else []) ++ tupleTails rest

/-- Effectful list map over `Except`, evaluating left to right and aborting
at the first failure — the evaluation order of a Python comprehension or of
`eth_abi`'s per-argument encoding loop. -/
def mapExcept (f : α → Except GatewayError β) : List α → Except GatewayError (List β)
  | [] => .ok []
  | x :: xs => do
      let y ← f x
      let ys ← mapExcept f xs
      pure (y :: ys)

/-- Embeds the `eth_abi` head-and-tail encoding of an argument tuple.  Every head slot
of the types used here occupies 32 bytes, so the head section is
`32 * n` bytes long. -/
def encodeTuple (args : List (ABIType × Value)) : Except GatewayError (List Nat) := do
  let encs ← mapExcept (fun a => do pure (a.1, ← encodeArg a.1 a.2)) args
  pure (tupleHeads encs (32 * args.length) 0 ++ tupleTails encs)

/-- Modelled from the spec: the AgentMech ABI artifact (the contract build
JSON the class loads through `cls.get_instance`) is not part of the given
sources; the spec gives the delivered function's canonical signature as
`deliver(uint256,bytes)`. -/
def deliverSignature : String := "deliver(uint256,bytes)"

/-- The 4-byte function selector: the first 4 bytes of the Keccak-256 hash
of the canonical signature (`function_abi_to_4byte_selector`). -/
def deliverSelector (kec : List Nat → List Nat) : List Nat :=
  (kec (strBytes deliverSignature)).take 4

/-- Embeds `AgentMechContract.get_deliver_data` (contract.py lines 88-108):
after a no-op `cast`, raise `ValueError` unless the injected client is an
`EthereumApi`; otherwise build the call bytes with
`contract_instance.encodeABI(fn_name="deliver", args=[request_id, data])`
and strip the hex armor (`bytes.fromhex(data[2:])`), i.e. return the
selector followed by the ABI-encoded arguments.  (The Python wraps the
bytes as `{"data": ...}`; the model returns the bytes.) -/
def get_deliver_data (kec : List Nat → List Nat) (ledger_api : LedgerApi)
    (request_id : Nat) (data : List Nat) : Except GatewayError (List Nat) :=
  match ledger_api with
  | .otherApi t => .error (.valueError ("Only EthereumApi is supported, got " ++ t))
  | .ethereumApi => do
      let enc ← encodeTuple [(.uint256, .nat request_id), (.bytesT, .byt data)]
      pure (deliverSelector kec ++ enc)

/-! ## Event log decoding (`web3._utils.events.get_event_data`) -/

/-- One declared event parameter: name, ABI type, indexed flag. -/
structure EventParam where
  name : String
  ty : ABIType
  indexed : Bool
  deriving Repr, DecidableEq

/-- A declared (non-anonymous) event of the supplied contract descriptor. -/
structure EventABI where
  name : String
  inputs : List EventParam
  deriving Repr, DecidableEq

/-- Canonical event signature, e.g. `Request(address,uint256,bytes)`. -/
def eventSignature (abi : EventABI) : String :=
  abi.name ++ "(" ++ String.intercalate "," (abi.inputs.map fun p => p.ty.canonicalName) ++ ")"

/-- The event's topic hash (`event_abi_to_log_topic`): Keccak-256 of the
canonical signature. -/
def eventTopic (kec : List Nat → List Nat) (abi : EventABI) : List Nat :=
  kec (strBytes (eventSignature abi))

/-- A raw log entry as the node returns it (fields the class touches). -/
structure Log where
  topics : List (List Nat)
  data : List Nat
  transactionHash : List Nat
  blockNumber : Nat
  deriving Repr, DecidableEq

/-- A transaction receipt: the list of logs the transaction emitted. -/
structure TxReceipt where
  logs : List Log
  deriving Repr, DecidableEq

/-- A decoded ("rich") log entry as produced by `get_event_data`: the
`args` dict plus the log fields the class reads back out of it. -/
structure DecodedEntry where
  args : List (String × Value)
  transactionHash : List Nat
  blockNumber : Nat
  deriving Repr, DecidableEq

/-- Decode one indexed parameter from its 32-byte topic: a static
`uint256` is the word's value; for a dynamic type the topic holds the
32-byte hash of the value and is surfaced as raw bytes. -/
def decodeTopic (ty : ABIType) (topic : List Nat) : Value :=
  match ty with
  | .uint256 => .nat (wordOfBytes topic)
  | .bytesT => .byt topic

/-- Decode the head slot at byte offset `pos` of the data section
(`eth_abi` decoder).  A static `uint256` is read in place; a dynamic
`bytes` head is an offset word, followed at that offset by a length word
and `ceil32 length` content bytes.  Any read past the end of the data
raises `eth_abi.exceptions.InsufficientDataBytes`. -/
def decodeHead (ty : ABIType) (data : List Nat) (pos : Nat) :
    Except GatewayError Value :=
  match ty with
  | .uint256 =>
      if pos + 32 ≤ data.length then
        .ok (.nat (wordOfBytes ((data.drop pos).take 32)))
      else .error .insufficientData
  | .bytesT =>
      if pos + 32 ≤ data.length then
        let off := wordOfBytes ((data.drop pos).take 32)
        if off + 32 ≤ data.length then
          let len := wordOfBytes ((data.drop off).take 32)
          if off + 32 + ceil32 len ≤ data.length then
            .ok (.byt ((data.drop (off + 32)).take len))
          else .error .insufficientData
        else .error .insufficientData
      else .error .insufficientData

/-- Embeds `abi_codec.decode_abi`: decode the data section against the list of
non-indexed parameter types, one head slot of 32 bytes per parameter. -/
def decodeData (tys : List ABIType) (data : List Nat) :
    Except GatewayError (List Value) :=
  mapExcept (fun it => decodeHead it.2 data (32 * it.1)) tys.enum

/-- Embeds `get_event_data(abi_codec, event_abi, log_entry)` for a non-anonymous
event: fail (`MismatchedABI`, modelled `decodeError`) on an empty topic
list or a first topic that is not the event's signature hash; fail
(`LogTopicError`, also `decodeError`) when the remaining topic count
differs from the declared indexed-parameter count; otherwise decode
indexed parameters from the topics and non-indexed parameters from the
data payload (where a data-length mismatch raises
`InsufficientDataBytes`, modelled `insufficientData`) and assemble the
`args` dict (topic names first, then data names, Python dict override
semantics). -/
def decodeEventLog (kec : List Nat → List Nat) (abi : EventABI) (log : Log) :
    Except GatewayError DecodedEntry :=
  match log.topics with
  | [] => .error .decodeError
  | t0 :: rest =>
      if t0 ≠ eventTopic kec abi then .error .decodeError
      else if rest.length ≠ (abi.inputs.filter (·.indexed)).length then .error .decodeError
      else
        match decodeData (((abi.inputs.filter fun p => !p.indexed).map (·.ty))) log.data with
        | .error e => .error e
        | .ok dataVals =>
            .ok { args := dictOfPairs
                    (List.zipWith (fun p t => (p.name, decodeTopic p.ty t))
                        (abi.inputs.filter (·.indexed)) rest ++
                      List.zipWith (fun p v => (p.name, v))
                        (abi.inputs.filter fun p => !p.indexed) dataVals)
                  transactionHash := log.transactionHash
                  blockNumber := log.blockNumber }

/-- The supplied contract descriptor: the two events the motivating use
case declares.  The concrete parameter lists live in the external ABI
artifact, so they stay abstract here. -/
structure ContractDescriptor where
  requestEvent : EventABI
  deliverEvent : EventABI
  deriving Repr, DecidableEq

/-- The record the two `get_*_events` methods build per decoded entry:
`{"tx_hash": entry.transactionHash.hex(), "block_number": entry.blockNumber,
**entry["args"]}`. -/
def mkEventRecord (e : DecodedEntry) : EventRecord :=
  dictOfPairs (("tx_hash", .str (hexBytes0x e.transactionHash)) ::
    ("block_number", .nat e.blockNumber) :: e.args)

/-- Shared body of `get_request_events` / `get_deliver_events`: the filter's
`get_all_entries` formats every raw log through `get_event_data` (a list
comprehension, so the first decode failure aborts the whole call), then the
comprehension over `entries` builds one record per entry, in order.
`logs` is the node's response to the installed filter
`{address, topic0, from_block..to_block}`. -/
def getEventsAgainst (kec : List Nat → List Nat) (abi : EventABI)
    (logs : List Log) : Except GatewayError (List EventRecord) := do
  let entries ← mapExcept (decodeEventLog kec abi) logs
  pure (entries.map mkEventRecord)

/-- Embeds `AgentMechContract.get_request_events` (contract.py lines 110-137).
The `ledger_api` is only `cast` (a static no-op); `from_block` / `to_block`
are forwarded to the node inside the filter.  (The Python wraps the list as
`{"data": ...}`; the model returns the list.) -/
def get_request_events (kec : List Nat → List Nat) (desc : ContractDescriptor)
    (ledger_api : LedgerApi) (from_block to_block : BlockIdentifier)
    (logs : List Log) : Except GatewayError (List EventRecord) :=
  getEventsAgainst kec desc.requestEvent logs

/-- Embeds `AgentMechContract.get_deliver_events` (contract.py lines 139-166):
identical to `get_request_events` with the `Deliver` event. -/
def get_deliver_events (kec : List Nat → List Nat) (desc : ContractDescriptor)
    (ledger_api : LedgerApi) (from_block to_block : BlockIdentifier)
    (logs : List Log) : Except GatewayError (List EventRecord) :=
  getEventsAgainst kec desc.deliverEvent logs

/-- Embeds `ContractEvent.processReceipt(tx_receipt)` with its default
`errors=WARN` policy — web3 5.x `_parse_logs`, forced whole by the
`tuple(...)` the caller builds before unpacking.  Each receipt log is run
through `get_event_data`; a failure of the caught classes
(`MismatchedABI` / `LogTopicError`, see `GatewayError.caughtByWarn`) is
skipped with a warning, while any other exception — in particular
`InsufficientDataBytes` from a data-length mismatch — propagates and
aborts the whole call. -/
def parseLogs (kec : List Nat → List Nat) (abi : EventABI) :
    List Log → Except GatewayError (List DecodedEntry)
  | [] => .ok []
  | l :: ls =>
      match decodeEventLog kec abi l with
      | .ok e =>
          match parseLogs kec abi ls with
          | .ok es => .ok (e :: es)
          | .error err => .error err
      | .error err =>
          if err.caughtByWarn then parseLogs kec abi ls else .error err

/-- Receipt extraction against one event: the uncaught exceptions of
`processReceipt` propagate; `event, *_ = processReceipt(...)` raises
`ValueError` on an empty match tuple (the spec's `NotFoundError`);
otherwise it keeps the first match and returns `dict(event["args"])` —
the args dict alone. -/
def processReceiptAgainst (kec : List Nat → List Nat) (abi : EventABI)
    (r : TxReceipt) : Except GatewayError EventRecord :=
  match parseLogs kec abi r.logs with
  | .error err => .error err
  | .ok [] => .error .notFound
  | .ok (e :: _) => .ok e.args

/-- Embeds `AgentMechContract.process_tx_receipt` (contract.py lines 168-184):
decode the receipt's logs against the `Request` event (the event is
hard-wired; the method takes no event-name parameter) and return the first
match's args. -/
def process_tx_receipt (kec : List Nat → List Nat) (desc : ContractDescriptor)
    (ledger_api : LedgerApi) (r : TxReceipt) : Except GatewayError EventRecord :=
  processReceiptAgainst kec desc.requestEvent r

/-! ## Lemmas about `mapExcept` -/

theorem mapExcept_ok_length {f : α → Except GatewayError β} :
    ∀ {xs : List α} {ys : List β}, mapExcept f xs = .ok ys → ys.length = xs.length := by
  intro xs
  induction xs with
  | nil => intro ys h; cases h; rfl
  | cons x xs ih =>
    intro ys h
    simp only [mapExcept] at h
    cases hx : f x with
    | error e => rw [hx] at h; cases h
    | ok y =>
      rw [hx] at h
      cases hxs : mapExcept f xs with
      | error e => rw [hxs] at h; cases h
      | ok ys' =>
        rw [hxs] at h
        cases h
        simp [ih hxs]

theorem mapExcept_ok_zip {f : α → Except GatewayError β} :
    ∀ {xs : List α} {ys : List β}, mapExcept f xs = .ok ys →
      ∀ p ∈ xs.zip ys, f p.1 = .ok p.2 := by
  intro xs
  induction xs with
  | nil => intro ys h p hp; cases h; cases hp
  | cons x xs ih =>
    intro ys h p hp
    simp only [mapExcept] at h
    cases hx : f x with
    | error e => rw [hx] at h; cases h
    | ok y =>
      rw [hx] at h
      cases hxs : mapExcept f xs with
      | error e => rw [hxs] at h; cases h
      | ok ys' =>
        rw [hxs] at h
        cases h
        rcases List.mem_cons.mp hp with hhead | htail
        · subst hhead; exact hx
        · exact ih hxs p htail

theorem mapExcept_ok_mem {f : α → Except GatewayError β} :
    ∀ {xs : List α} {ys : List β}, mapExcept f xs = .ok ys →
      ∀ x ∈ xs, ∃ y, f x = .ok y := by
  intro xs
  induction xs with
  | nil => intro ys _ x hx; cases hx
  | cons z zs ih =>
    intro ys h x hx
    simp only [mapExcept] at h
    cases hz : f z with
    | error e => rw [hz] at h; cases h
    | ok y =>
      rw [hz] at h
      cases hzs : mapExcept f zs with
      | error e => rw [hzs] at h; cases h
      | ok ys' =>
        rcases List.mem_cons.mp hx with hhead | htail
        · subst hhead; exact ⟨y, hz⟩
        · exact ih hzs x htail

theorem mapExcept_error_mem {f : α → Except GatewayError β} :
    ∀ {xs : List α} {e : GatewayError}, mapExcept f xs = .error e →
      ∃ x ∈ xs, f x = .error e := by
  intro xs
  induction xs with
  | nil => intro e h; cases h
  | cons z zs ih =>
    intro e h
    simp only [mapExcept] at h
    cases hz : f z with
    | error e' =>
      rw [hz] at h
      cases h
      exact ⟨z, List.mem_cons_self z zs, hz⟩
    | ok y =>
      rw [hz] at h
      cases hzs : mapExcept f zs with
      | error e' =>
        rw [hzs] at h
        cases h
        obtain ⟨x, hx, hfx⟩ := ih hzs
        exact ⟨x, List.mem_cons_of_mem _ hx, hfx⟩
      | ok ys' => rw [hzs] at h; cases h

theorem mapExcept_error_of_mem {f : α → Except GatewayError β} :
    ∀ {xs : List α} {x : α} {e : GatewayError}, x ∈ xs → f x = .error e →
      ∃ e', mapExcept f xs = .error e' ∧ ∃ x' ∈ xs, f x' = .error e' := by
  intro xs
  induction xs with
  | nil => intro x e hx _; cases hx
  | cons z zs ih =>
    intro x e hx hfx
    cases hz : f z with
    | error e' =>
      refine ⟨e', ?_, z, List.mem_cons_self z zs, hz⟩
      simp [mapExcept, hz, Bind.bind, Except.bind]
    | ok y =>
      rcases List.mem_cons.mp hx with hhead | htail
      · subst hhead
        rw [hz] at hfx
        cases hfx
      · obtain ⟨e', hm, x', hx', hfx'⟩ := ih htail hfx
        refine ⟨e', ?_, x', List.mem_cons_of_mem _ hx', hfx'⟩
        simp [mapExcept, hz, hm, Bind.bind, Except.bind]

/-! ## Lemmas about decoding -/

theorem decodeHead_error_eq {ty : ABIType} {data : List Nat} {pos : Nat}
    {e : GatewayError} (h : decodeHead ty data pos = .error e) :
    e = .insufficientData := by
  cases ty <;> simp only [decodeHead] at h <;> split_ifs at h <;> simp_all

theorem decodeData_error_eq {tys : List ABIType} {data : List Nat}
    {e : GatewayError} (h : decodeData tys data = .error e) :
    e = .insufficientData := by
  obtain ⟨x, _, hfx⟩ := mapExcept_error_mem h
  exact decodeHead_error_eq hfx

theorem decodeEventLog_error_eq {kec : List Nat → List Nat} {abi : EventABI}
    {l : Log} {e : GatewayError} (h : decodeEventLog kec abi l = .error e) :
    e = .decodeError ∨ e = .insufficientData := by
  unfold decodeEventLog at h
  split at h
  · cases h; exact Or.inl rfl
  · split at h
    · cases h; exact Or.inl rfl
    · split at h
      · cases h; exact Or.inl rfl
      · split at h
        · next e' heq => cases h; exact Or.inr (decodeData_error_eq heq)
        · next vs heq => cases h

theorem decodeEventLog_ok_fields {kec : List Nat → List Nat} {abi : EventABI}
    {l : Log} {en : DecodedEntry} (h : decodeEventLog kec abi l = .ok en) :
    en.transactionHash = l.transactionHash ∧ en.blockNumber = l.blockNumber := by
  unfold decodeEventLog at h
  split at h
  · cases h
  · split at h
    · cases h
    · split at h
      · cases h
      · split at h
        · next e' heq => cases h
        · next vs heq => cases h; exact ⟨rfl, rfl⟩

/-! ## Lemmas about dict lookups -/

theorem lookup_cons_ne {t : List (String × Value)} {k a : String} {b : Value}
    (h : k ≠ a) : ((a, b) :: t).lookup k = t.lookup k := by
  have hb : (k == a) = false := beq_eq_false_iff_ne.mpr h
  simp [List.lookup, hb]

theorem lookup_cons_self {t : List (String × Value)} {k : String} {b : Value} :
    ((k, b) :: t).lookup k = some b := by
  simp [List.lookup]

theorem lookup_map_overwrite_ne {k k' : String} {v : Value} (h : k ≠ k') :
    ∀ m : List (String × Value),
      (m.map fun p => if p.1 = k' then (k', v) else p).lookup k = m.lookup k := by
  intro m
  induction m with
  | nil => rfl
  | cons p ps ih =>
    obtain ⟨a, b⟩ := p
    simp only [List.map_cons]
    by_cases hk : k = a
    · subst hk
      split
      · next hc => exact absurd hc h
      · rw [lookup_cons_self, lookup_cons_self]
    · split
      · rw [lookup_cons_ne h, lookup_cons_ne hk, ih]
      · rw [lookup_cons_ne hk, lookup_cons_ne hk, ih]

theorem lookup_append_single_ne {k k' : String} {v : Value} (h : k ≠ k') :
    ∀ m : List (String × Value), (m ++ [(k', v)]).lookup k = m.lookup k := by
  intro m
  induction m with
  | nil =>
    simp only [List.nil_append]
    rw [lookup_cons_ne h]
  | cons p ps ih =>
    obtain ⟨a, b⟩ := p
    by_cases hk : k = a
    · subst hk
      simp only [List.cons_append]
      rw [lookup_cons_self, lookup_cons_self]
    · simp only [List.cons_append]
      rw [lookup_cons_ne hk, lookup_cons_ne hk, ih]

theorem lookup_dictInsert_ne {m : List (String × Value)} {k k' : String}
    {v : Value} (h : k ≠ k') : (dictInsert m k' v).lookup k = m.lookup k := by
  unfold dictInsert
  split
  · exact lookup_map_overwrite_ne h m
  · exact lookup_append_single_ne h m

theorem lookup_foldl_dictInsert {k : String} :
    ∀ (ps : List (String × Value)) (m : List (String × Value)),
      (∀ p ∈ ps, p.1 ≠ k) →
      (ps.foldl (fun m p => dictInsert m p.1 p.2) m).lookup k = m.lookup k := by
  intro ps
  induction ps with
  | nil => intro m _; rfl
  | cons q qs ih =>
    intro m h
    simp only [List.foldl_cons]
    rw [ih _ fun p hp => h p (List.mem_cons_of_mem _ hp)]
    exact lookup_dictInsert_ne (Ne.symm (h q (List.mem_cons_self q qs)))

theorem mkEventRecord_lookup_txhash {e : DecodedEntry}
    (h : ∀ p ∈ e.args, p.1 ≠ "tx_hash") :
    (mkEventRecord e).lookup "tx_hash"
      = some (.str (hexBytes0x e.transactionHash)) := by
  unfold mkEventRecord dictOfPairs
  simp only [List.foldl_cons]
  rw [lookup_foldl_dictInsert e.args _ h]
  rfl

theorem mkEventRecord_lookup_blocknum {e : DecodedEntry}
    (h : ∀ p ∈ e.args, p.1 ≠ "block_number") :
    (mkEventRecord e).lookup "block_number" = some (.nat e.blockNumber) := by
  unfold mkEventRecord dictOfPairs
  simp only [List.foldl_cons]
  rw [lookup_foldl_dictInsert e.args _ h]
  rfl

/-! ## Lemmas about `parseLogs` -/

theorem parseLogs_ok_of_caught {kec : List Nat → List Nat} {abi : EventABI} :
    ∀ {logs : List Log},
      (∀ l ∈ logs, decodeEventLog kec abi l = .error .decodeError) →
      parseLogs kec abi logs = .ok [] := by
  intro logs
  induction logs with
  | nil => intro _; rfl
  | cons z zs ih =>
    intro h
    simp only [parseLogs]
    rw [h z (List.mem_cons_self _ _)]
    exact ih fun l hl => h l (List.mem_cons_of_mem _ hl)

theorem parseLogs_ok_mem {kec : List Nat → List Nat} {abi : EventABI} :
    ∀ {logs : List Log} {es : List DecodedEntry} {e : DecodedEntry},
      parseLogs kec abi logs = .ok es → e ∈ es →
      ∃ l ∈ logs, decodeEventLog kec abi l = .ok e := by
  intro logs
  induction logs with
  | nil => intro es e h he; cases h; cases he
  | cons z zs ih =>
    intro es e h he
    simp only [parseLogs] at h
    split at h
    · rename_i e0 heq
      split at h
      · rename_i es' heq2
        cases h
        rcases List.mem_cons.mp he with hh | ht
        · subst hh
          exact ⟨z, List.mem_cons_self _ _, heq⟩
        · obtain ⟨l, hl, hd⟩ := ih heq2 ht
          exact ⟨l, List.mem_cons_of_mem _ hl, hd⟩
      · cases h
    · split at h
      · obtain ⟨l, hl, hd⟩ := ih h he
        exact ⟨l, List.mem_cons_of_mem _ hl, hd⟩
      · cases h

theorem parseLogs_error_insufficient {kec : List Nat → List Nat}
    {abi : EventABI} :
    ∀ {logs : List Log} {l : Log}, l ∈ logs →
      decodeEventLog kec abi l = .error .insufficientData →
      parseLogs kec abi logs = .error .insufficientData := by
  intro logs
  induction logs with
  | nil => intro l hl _; cases hl
  | cons z zs ih =>
    intro l hl hd
    rcases List.mem_cons.mp hl with hh | ht
    · subst hh
      simp only [parseLogs]
      rw [hd]
      rfl
    · cases hz : decodeEventLog kec abi z with
      | ok e0 => simp [parseLogs, hz, ih ht hd]
      | error err =>
        rcases decodeEventLog_error_eq hz with he | he
        · subst he
          simp [parseLogs, hz, GatewayError.caughtByWarn, ih ht hd]
        · subst he
          simp [parseLogs, hz, GatewayError.caughtByWarn]

/-! ## Concrete material for witnesses and counterexamples -/

/-- A concrete stand-in hash for closed evaluations — the identity on byte
strings (the whole development is parametric in the hash function). -/
def kecId : List Nat → List Nat := fun bs => bs

/-- A concrete descriptor: `Request` and `Deliver` events without
parameters. -/
def desc0 : ContractDescriptor :=
  { requestEvent := { name := "Request", inputs := [] }
    deliverEvent := { name := "Deliver", inputs := [] } }

/-- A well-formed `Request` log: the signature topic, transaction hash
byte `0xab`, block number 7. -/
def log0 : Log :=
  { topics := [strBytes "Request()"], data := [], transactionHash := [171],
    blockNumber := 7 }

/-- The decoded entry of `log0`. -/
def entry0 : DecodedEntry :=
  { args := [], transactionHash := [171], blockNumber := 7 }

/-- A malformed `Request` log: right signature topic but a spurious second
topic, so the topic count mismatches the declared event. -/
def badLog0 : Log :=
  { topics := [strBytes "Request()", strBytes "Request()"], data := [],
    transactionHash := [9], blockNumber := 4 }

/-- A well-formed `Deliver` log. -/
def delLog0 : Log :=
  { topics := [strBytes "Deliver()"], data := [], transactionHash := [5],
    blockNumber := 3 }

/-- A descriptor whose `Request` event carries one non-indexed `bytes`
parameter, so its data section must decode. -/
def descD : ContractDescriptor :=
  { requestEvent :=
      { name := "Request"
        inputs := [{ name := "data", ty := .bytesT, indexed := false }] }
    deliverEvent := { name := "Deliver", inputs := [] } }

/-- A well-formed `Request(bytes)` log: offset word `0x20`, length word 0,
empty payload. -/
def okDataLog : Log :=
  { topics := [strBytes "Request(bytes)"], data := wordBytes 32 ++ wordBytes 0,
    transactionHash := [1], blockNumber := 1 }

/-- A `Request(bytes)` log whose data section is truncated (empty), so the
data-length check fails with `InsufficientDataBytes`. -/
def truncLog0 : Log :=
  { topics := [strBytes "Request(bytes)"], data := [], transactionHash := [7],
    blockNumber := 9 }

/-! ## The claims -/

/-- C1 (amended): over any log list the ledger returns, once every log
decodes, `get_request_events` succeeds with exactly one record per log, in
the ledger's order; each record's `block_number` is its log's block number
and its `tx_hash` is the transaction hash as a lower-case hex string that
keeps the leading `"0x"` of `HexBytes.hex()`. -/
theorem claim1_request_events_shape
    (kec : List Nat → List Nat) (desc : ContractDescriptor) (api : LedgerApi)
    (fb tb : BlockIdentifier) (logs : List Log) (entries : List DecodedEntry)
    (hdec : mapExcept (decodeEventLog kec desc.requestEvent) logs = .ok entries)
    (hnames : ∀ e ∈ entries, ∀ p ∈ e.args,
      p.1 ≠ "tx_hash" ∧ p.1 ≠ "block_number") :
    get_request_events kec desc api fb tb logs = .ok (entries.map mkEventRecord) ∧
      entries.length = logs.length ∧
      ∀ le ∈ logs.zip entries,
        (mkEventRecord le.2).lookup "tx_hash"
            = some (.str (hexBytes0x le.1.transactionHash)) ∧
          (mkEventRecord le.2).lookup "block_number"
            = some (.nat le.1.blockNumber) := by
  refine ⟨?_, mapExcept_ok_length hdec, ?_⟩
  · simp [get_request_events, getEventsAgainst, hdec, Bind.bind, Except.bind,
      Pure.pure, Except.pure]
  · intro le hle
    have hmem := List.of_mem_zip hle
    have hdecl : decodeEventLog kec desc.requestEvent le.1 = .ok le.2 :=
      mapExcept_ok_zip hdec le hle
    obtain ⟨htx, hbn⟩ := decodeEventLog_ok_fields hdecl
    have h1 := mkEventRecord_lookup_txhash
      (e := le.2) fun p hp => (hnames le.2 hmem.2 p hp).1
    have h2 := mkEventRecord_lookup_blocknum
      (e := le.2) fun p hp => (hnames le.2 hmem.2 p hp).2
    rw [htx] at h1
    rw [hbn] at h2
    exact ⟨h1, h2⟩

/-- Witness for C1, at a one-log ledger response that decodes. -/
theorem claim1_request_events_shape_witness :
    get_request_events kecId desc0 .ethereumApi .earliest .latest [log0]
        = .ok ([entry0].map mkEventRecord) ∧
      [entry0].length = [log0].length ∧
      ∀ le ∈ [log0].zip [entry0],
        (mkEventRecord le.2).lookup "tx_hash"
            = some (.str (hexBytes0x le.1.transactionHash)) ∧
          (mkEventRecord le.2).lookup "block_number"
            = some (.nat le.1.blockNumber) :=
  claim1_request_events_shape kecId desc0 .ethereumApi .earliest .latest
    [log0] [entry0] (by rfl) (by decide)

/-- Counterexample to C1 as stated: the single-record result of
`get_request_events` carries `tx_hash = "0xab"`, not the bare lower-case
hex `"ab" = hexBytes log0.transactionHash` the claim asserts — the hash
string keeps its leading `"0x"`. -/
theorem claim1_counterexample :
    get_request_events kecId desc0 .ethereumApi .earliest .latest [log0]
        = .ok [[("tx_hash", .str "0xab"), ("block_number", .nat 7)]] ∧
      ("0xab" : String) ≠ hexBytes log0.transactionHash := by
  refine ⟨by rfl, by decide⟩

/-- C2: `process_tx_receipt` fails with the not-found error (the
`ValueError` the starred unpacking of an empty match tuple raises) when
the match tuple comes out empty — no receipt log decodes as a `Request`
event — and when the match tuple holds exactly one decoded log it returns
precisely that log's decoded args. -/
theorem claim2_receipt_extraction
    (kec : List Nat → List Nat) (desc : ContractDescriptor) (api : LedgerApi)
    (r : TxReceipt) :
    (parseLogs kec desc.requestEvent r.logs = .ok [] →
        process_tx_receipt kec desc api r = .error .notFound) ∧
      ∀ e : DecodedEntry, parseLogs kec desc.requestEvent r.logs = .ok [e] →
        process_tx_receipt kec desc api r = .ok e.args := by
  constructor
  · intro h
    simp [process_tx_receipt, processReceiptAgainst, h]
  · intro e h
    simp [process_tx_receipt, processReceiptAgainst, h]

/-- Witness for C2: a receipt holding only a `Deliver` log has zero
matches and fails as not-found; a receipt holding exactly `log0` returns
`entry0`'s args. -/
theorem claim2_receipt_extraction_witness :
    process_tx_receipt kecId desc0 .ethereumApi ⟨[delLog0]⟩ = .error .notFound ∧
      process_tx_receipt kecId desc0 .ethereumApi ⟨[log0]⟩ = .ok entry0.args :=
  ⟨(claim2_receipt_extraction kecId desc0 .ethereumApi ⟨[delLog0]⟩).1 (by rfl),
    (claim2_receipt_extraction kecId desc0 .ethereumApi ⟨[log0]⟩).2 entry0 (by rfl)⟩

/-- C3: `get_deliver_data` rejects a request id at or above `2 ^ 256` with
the encoding error (`ValueOutOfBounds`, a subclass of `EncodingError`) and
succeeds for every id inside the 256-bit unsigned range; as a plain
function of its inputs it is side-effect-free. -/
theorem claim3_deliver_bounds (kec : List Nat → List Nat) (rid : Nat)
    (data : List Nat) :
    (2 ^ 256 ≤ rid →
        get_deliver_data kec .ethereumApi rid data = .error .encodingError) ∧
      (rid < 2 ^ 256 → (get_deliver_data kec .ethereumApi rid data).isOk = true) := by
  constructor
  · intro h
    have hlt : ¬ rid < 2 ^ 256 := Nat.not_lt.mpr h
    simp only [get_deliver_data, encodeTuple, mapExcept, encodeArg, if_neg hlt,
      Bind.bind, Except.bind]
  · intro h
    simp only [get_deliver_data, encodeTuple, mapExcept, encodeArg, if_pos h,
      Bind.bind, Except.bind, Pure.pure, Except.pure, Except.isOk, Except.toBool]

/-- Witness for C3 at the smallest out-of-range id and at id 5. -/
theorem claim3_deliver_bounds_witness :
    get_deliver_data kecId .ethereumApi (2 ^ 256) [] = .error .encodingError ∧
      (get_deliver_data kecId .ethereumApi 5 [42]).isOk = true :=
  ⟨(claim3_deliver_bounds kecId (2 ^ 256) []).1 (le_refl _),
    (claim3_deliver_bounds kecId 5 [42]).2 (by norm_num)⟩

/-- C4 (amended): the two event-query operations return records augmented
with the `tx_hash` (lower-case hex string) and `block_number` (integer)
fields; `process_tx_receipt` does not — the record it returns is the bare
decoded args of the first matching log, with no augmentation. -/
theorem claim4_record_shape
    (kec : List Nat → List Nat) (desc : ContractDescriptor) (api : LedgerApi)
    (fb tb : BlockIdentifier) (logs : List Log) (recs : List EventRecord)
    (r : TxReceipt) (a : EventRecord)
    (hq : get_request_events kec desc api fb tb logs = .ok recs)
    (hp : process_tx_receipt kec desc api r = .ok a) :
    (∀ rec ∈ recs, ∃ e : DecodedEntry,
        rec = mkEventRecord e ∧
          ((∀ p ∈ e.args, p.1 ≠ "tx_hash" ∧ p.1 ≠ "block_number") →
            rec.lookup "tx_hash" = some (.str (hexBytes0x e.transactionHash)) ∧
              rec.lookup "block_number" = some (.nat e.blockNumber))) ∧
      ∃ l ∈ r.logs, ∃ e : DecodedEntry,
        decodeEventLog kec desc.requestEvent l = .ok e ∧ a = e.args := by
  constructor
  · intro rec hrec
    unfold get_request_events getEventsAgainst at hq
    cases hm : mapExcept (decodeEventLog kec desc.requestEvent) logs with
    | error err =>
      rw [hm] at hq
      cases hq
    | ok entries =>
      rw [hm] at hq
      simp only [Bind.bind, Except.bind, Pure.pure, Except.pure] at hq
      cases hq
      obtain ⟨e, _, he⟩ := List.mem_map.mp hrec
      refine ⟨e, he.symm, fun hnames => ?_⟩
      rw [← he]
      exact ⟨mkEventRecord_lookup_txhash fun p hp' => (hnames p hp').1,
        mkEventRecord_lookup_blocknum fun p hp' => (hnames p hp').2⟩
  · unfold process_tx_receipt processReceiptAgainst at hp
    cases hpl : parseLogs kec desc.requestEvent r.logs with
    | error err => rw [hpl] at hp; cases hp
    | ok es =>
      rw [hpl] at hp
      cases es with
      | nil => cases hp
      | cons e es' =>
        cases hp
        obtain ⟨l, hl, hd⟩ := parseLogs_ok_mem hpl (List.mem_cons_self e es')
        exact ⟨l, hl, e, hd, rfl⟩

/-- Counterexample to C4 as stated: `process_tx_receipt` on a receipt with
one matching `Request` log returns the bare args dict — here the empty
record — without any `tx_hash` or `block_number` field. -/
theorem claim4_counterexample :
    process_tx_receipt kecId desc0 .ethereumApi ⟨[log0]⟩ = .ok [] ∧
      ([] : EventRecord).lookup "tx_hash" = none ∧
      ([] : EventRecord).lookup "block_number" = none :=
  ⟨rfl, rfl, rfl⟩

/-- Witness for C4 at a one-log query response and a one-log receipt. -/
theorem claim4_record_shape_witness :
    (∀ rec ∈ [mkEventRecord entry0], ∃ e : DecodedEntry,
        rec = mkEventRecord e ∧
          ((∀ p ∈ e.args, p.1 ≠ "tx_hash" ∧ p.1 ≠ "block_number") →
            rec.lookup "tx_hash" = some (.str (hexBytes0x e.transactionHash)) ∧
              rec.lookup "block_number" = some (.nat e.blockNumber))) ∧
      ∃ l ∈ (⟨[log0]⟩ : TxReceipt).logs, ∃ e : DecodedEntry,
        decodeEventLog kecId desc0.requestEvent l = .ok e ∧
          entry0.args = e.args :=
  claim4_record_shape kecId desc0 .ethereumApi .earliest .latest
    [log0] [mkEventRecord entry0] ⟨[log0]⟩ entry0.args (by rfl) (by rfl)

/-- C5 (amended): in the event-query operations one undecodable log —
topic-count or data-length mismatch alike — makes the whole call fail
with a decode-category error (`MismatchedABI`/`LogTopicError` or
`InsufficientDataBytes`) and no records are returned (all-or-nothing),
and a successful query has decoded every log it was given; in receipt
extraction a data-length mismatch likewise aborts the call — the
`InsufficientDataBytes` passes through the `errors=WARN` policy — while a
topic-count mismatch is silently discarded (those classes are caught);
any record the receipt path returns is the complete decode of one receipt
log, never partially populated. -/
theorem claim5_decode_failure
    (kec : List Nat → List Nat) (desc : ContractDescriptor) (api : LedgerApi)
    (fb tb : BlockIdentifier) (logs : List Log) (l : Log) (err : GatewayError)
    (recs : List EventRecord) (r : TxReceipt) (a : EventRecord) :
    (l ∈ logs → decodeEventLog kec desc.requestEvent l = .error err →
        ∃ err', get_request_events kec desc api fb tb logs = .error err' ∧
          (err' = .decodeError ∨ err' = .insufficientData)) ∧
      (get_request_events kec desc api fb tb logs = .ok recs →
        recs.length = logs.length ∧
          ∀ l' ∈ logs, ∃ e : DecodedEntry,
            decodeEventLog kec desc.requestEvent l' = .ok e) ∧
      (l ∈ r.logs →
        decodeEventLog kec desc.requestEvent l = .error .insufficientData →
        process_tx_receipt kec desc api r = .error .insufficientData) ∧
      (process_tx_receipt kec desc api r = .ok a →
        ∃ l' ∈ r.logs, ∃ e : DecodedEntry,
          decodeEventLog kec desc.requestEvent l' = .ok e ∧ a = e.args) := by
  refine ⟨?_, ?_, ?_, ?_⟩
  · intro hl hdec
    obtain ⟨e', hm, x', hx', hfx'⟩ := mapExcept_error_of_mem hl hdec
    refine ⟨e', ?_, decodeEventLog_error_eq hfx'⟩
    simp [get_request_events, getEventsAgainst, hm, Bind.bind, Except.bind]
  · intro hq
    unfold get_request_events getEventsAgainst at hq
    cases hm : mapExcept (decodeEventLog kec desc.requestEvent) logs with
    | error e => rw [hm] at hq; cases hq
    | ok entries =>
      rw [hm] at hq
      simp only [Bind.bind, Except.bind, Pure.pure, Except.pure] at hq
      cases hq
      exact ⟨by simpa using mapExcept_ok_length hm, mapExcept_ok_mem hm⟩
  · intro hl hdec
    have hpl := parseLogs_error_insufficient hl hdec
    simp [process_tx_receipt, processReceiptAgainst, hpl]
  · intro hp
    unfold process_tx_receipt processReceiptAgainst at hp
    cases hpl : parseLogs kec desc.requestEvent r.logs with
    | error e2 => rw [hpl] at hp; cases hp
    | ok es =>
      rw [hpl] at hp
      cases es with
      | nil => cases hp
      | cons e es' =>
        cases hp
        obtain ⟨l', hl', hd⟩ := parseLogs_ok_mem hpl (List.mem_cons_self e es')
        exact ⟨l', hl', e, hd, rfl⟩

/-- Counterexample to C5 as stated: a receipt holding a malformed
`Request` log (spurious extra topic) and a well-formed one —
`process_tx_receipt` silently skips the malformed log and returns the
good one, instead of failing with the decode error. -/
theorem claim5_counterexample :
    decodeEventLog kecId desc0.requestEvent badLog0 = .error .decodeError ∧
      process_tx_receipt kecId desc0 .ethereumApi ⟨[badLog0, log0]⟩ = .ok [] :=
  ⟨rfl, rfl⟩

/-- Witness for C5: a bad-log query fails wholesale; a good one-log query
succeeds with every log decoded; a truncated-data receipt fails with the
uncaught insufficient-data error; a good one-log receipt returns a full
decode. -/
theorem claim5_decode_failure_witness :
    (∃ err', get_request_events kecId desc0 .ethereumApi .earliest .latest
          [badLog0] = .error err' ∧
        (err' = .decodeError ∨ err' = .insufficientData)) ∧
      ([mkEventRecord entry0].length = [log0].length ∧
        ∀ l' ∈ [log0], ∃ e : DecodedEntry,
          decodeEventLog kecId desc0.requestEvent l' = .ok e) ∧
      process_tx_receipt kecId descD .ethereumApi ⟨[truncLog0]⟩
          = .error .insufficientData ∧
      ∃ l' ∈ (⟨[log0]⟩ : TxReceipt).logs, ∃ e : DecodedEntry,
        decodeEventLog kecId desc0.requestEvent l' = .ok e ∧
          entry0.args = e.args :=
  ⟨(claim5_decode_failure kecId desc0 .ethereumApi .earliest .latest [badLog0]
      badLog0 .decodeError [] ⟨[]⟩ []).1 (List.mem_singleton.mpr rfl) (by rfl),
    (claim5_decode_failure kecId desc0 .ethereumApi .earliest .latest [log0]
      log0 .decodeError [mkEventRecord entry0] ⟨[]⟩ []).2.1 (by rfl),
    (claim5_decode_failure kecId descD .ethereumApi .earliest .latest []
      truncLog0 .decodeError [] ⟨[truncLog0]⟩ []).2.2.1
      (List.mem_singleton.mpr rfl) (by rfl),
    (claim5_decode_failure kecId desc0 .ethereumApi .earliest .latest [log0]
      log0 .decodeError [mkEventRecord entry0] ⟨[log0]⟩ entry0.args).2.2.2
      (by rfl)⟩

/-- C6: `get_deliver_data` is deterministic — calls with identical
`(request_id, data)` inputs produce byte-identical output. -/
theorem claim6_deliver_deterministic (kec : List Nat → List Nat)
    (api : LedgerApi) (rid₁ rid₂ : Nat) (d₁ d₂ : List Nat)
    (h1 : rid₁ = rid₂) (h2 : d₁ = d₂) :
    get_deliver_data kec api rid₁ d₁ = get_deliver_data kec api rid₂ d₂ := by
  rw [h1, h2]

/-- Witness for C6 at a concrete input pair. -/
theorem claim6_deliver_deterministic_witness :
    get_deliver_data kecId .ethereumApi 5 [42]
      = get_deliver_data kecId .ethereumApi 5 [42] :=
  claim6_deliver_deterministic kecId .ethereumApi 5 5 [42] [42] rfl rfl

/-- The call bytes exactly as the spec words them: the 4-byte selector —
the first 4 bytes of the Keccak-256 hash of the canonical signature
`deliver(uint256,bytes)` — followed by the head-and-tail encoding of the
arguments: the static `uint256` inlined, the dynamic `bytes` written as an
offset pointer (`0x40`) to a length-prefixed payload padded to 32-byte
words. -/
def specDeliverCallBytes (kec : List Nat → List Nat) (rid : Nat)
    (data : List Nat) : List Nat :=
  (kec (strBytes "deliver(uint256,bytes)")).take 4 ++
    wordBytes rid ++ wordBytes 64 ++ wordBytes data.length ++ padRight32 data

/-- C7: for every in-range request id the encoder's output equals the
spec-described byte layout. -/
theorem claim7_deliver_encoding (kec : List Nat → List Nat) (rid : Nat)
    (data : List Nat) (h : rid < 2 ^ 256) :
    get_deliver_data kec .ethereumApi rid data
      = .ok (specDeliverCallBytes kec rid data) := by
  simp only [get_deliver_data, specDeliverCallBytes, deliverSelector,
    deliverSignature, encodeTuple, mapExcept, encodeArg, if_pos h,
    Bind.bind, Except.bind, Pure.pure, Except.pure, tupleHeads, tupleTails,
    ABIType.isDynamic, List.length_cons, List.length_nil, List.append_assoc,
    List.append_nil, if_false, if_true, Bool.false_eq_true]
  norm_num [tupleHeads, tupleTails, ABIType.isDynamic]

/-- Witness for C7 at request id 1 and payload `[42]`. -/
theorem claim7_deliver_encoding_witness :
    get_deliver_data kecId .ethereumApi 1 [42]
      = .ok (specDeliverCallBytes kecId 1 [42]) :=
  claim7_deliver_encoding kecId 1 [42] (by norm_num)

/-- C8 (amended): when the receipt's match tuple is produced with at
least two decoded `Request` logs, `process_tx_receipt` returns the record
decoded from the first match and silently discards the rest (the starred
unpacking keeps only the head), never failing with an ambiguity error;
the proviso that the tuple is produced is forced by the counterexample —
a further topic-matching log with mismatched data length aborts the call
instead of being discarded. -/
theorem claim8_first_match (kec : List Nat → List Nat)
    (desc : ContractDescriptor) (api : LedgerApi) (r : TxReceipt)
    (e₁ e₂ : DecodedEntry) (rest : List DecodedEntry)
    (h : parseLogs kec desc.requestEvent r.logs = .ok (e₁ :: e₂ :: rest)) :
    process_tx_receipt kec desc api r = .ok e₁.args := by
  simp [process_tx_receipt, processReceiptAgainst, h]

/-- Counterexample to C8 as stated: a receipt with two decodable matching
`Request(bytes)` logs plus a third topic-matching log whose data section
is truncated.  More than one log matches the named event, yet forcing the
whole match tuple hits the uncaught `InsufficientDataBytes`, so the call
fails instead of returning the first record. -/
theorem claim8_counterexample :
    decodeEventLog kecId descD.requestEvent okDataLog
        = .ok { args := [("data", .byt [])], transactionHash := [1],
                blockNumber := 1 } ∧
      decodeEventLog kecId descD.requestEvent truncLog0
        = .error .insufficientData ∧
      process_tx_receipt kecId descD .ethereumApi
          ⟨[okDataLog, okDataLog, truncLog0]⟩ = .error .insufficientData :=
  ⟨rfl, rfl, rfl⟩

/-- Witness for C8 at a receipt carrying two decodable matching logs. -/
theorem claim8_first_match_witness :
    process_tx_receipt kecId desc0 .ethereumApi ⟨[log0, log0]⟩
      = .ok entry0.args :=
  claim8_first_match kecId desc0 .ethereumApi ⟨[log0, log0]⟩
    entry0 entry0 [] (by rfl)

/-- C9: only `get_deliver_data` checks the runtime class of the injected
client: any non-`EthereumApi` argument yields the `ValueError` naming the
received type, whatever the other arguments are (in particular even an
out-of-range request id still reports the type error, so the check comes
before any encoding); the other three public operations ignore the client
argument entirely. -/
theorem claim9_ledger_api_check (kec : List Nat → List Nat)
    (desc : ContractDescriptor) (rid : Nat) (data : List Nat)
    (fb tb : BlockIdentifier) (logs : List Log) (r : TxReceipt)
    (t : String) (api api' : LedgerApi) :
    get_deliver_data kec (.otherApi t) rid data
        = .error (.valueError ("Only EthereumApi is supported, got " ++ t)) ∧
      get_request_events kec desc api fb tb logs
          = get_request_events kec desc api' fb tb logs ∧
      get_deliver_events kec desc api fb tb logs
          = get_deliver_events kec desc api' fb tb logs ∧
      process_tx_receipt kec desc api r = process_tx_receipt kec desc api' r :=
  ⟨rfl, rfl, rfl, rfl⟩

/-- C10: receipt processing is hard-wired to the `Request` event: the
method takes no event-name parameter, coincides with the generic receipt
extraction instantiated at the descriptor's `Request` event, and on a
receipt none of whose logs decode as `Request` it fails as not-found —
never surfacing a `Deliver` event. -/
theorem claim10_hardwired_request (kec : List Nat → List Nat)
    (desc : ContractDescriptor) (api : LedgerApi) (r : TxReceipt) :
    process_tx_receipt kec desc api r
        = processReceiptAgainst kec desc.requestEvent r ∧
      ((∀ l ∈ r.logs, decodeEventLog kec desc.requestEvent l = .error .decodeError) →
        process_tx_receipt kec desc api r = .error .notFound) := by
  refine ⟨rfl, fun h => ?_⟩
  have hpl : parseLogs kec desc.requestEvent r.logs = .ok [] :=
    parseLogs_ok_of_caught h
  simp [process_tx_receipt, processReceiptAgainst, hpl]

/-- Witness for C10 at a receipt holding only a (decodable) `Deliver`
log: extraction still fails as not-found. -/
theorem claim10_hardwired_request_witness :
    process_tx_receipt kecId desc0 .ethereumApi ⟨[delLog0]⟩
        = processReceiptAgainst kecId desc0.requestEvent ⟨[delLog0]⟩ ∧
      process_tx_receipt kecId desc0 .ethereumApi ⟨[delLog0]⟩
        = .error .notFound :=
  ⟨(claim10_hardwired_request kecId desc0 .ethereumApi ⟨[delLog0]⟩).1,
    (claim10_hardwired_request kecId desc0 .ethereumApi ⟨[delLog0]⟩).2
      (by intro l hl
          simp only [List.mem_singleton] at hl
          subst hl
          rfl)⟩

end AgentMech
